import Mathlib

/-!
Verification of the RTS gameplay core: a shallow embedding of the ECS runtime
(World / SystemManager), the resource-gathering system, the movement system,
the selection system, the production system and the building-placement system,
together with theorems settling the specified properties.

Numeric conventions: the source compares Euclidean distances (computed with a
square root) against constant bounds; whenever only the comparison matters we
compare squared distances against squared bounds, which is equivalent since
both sides are non-negative.  Resource amounts and pool counters are embedded
as integers, timers and time deltas as rationals; the movement system, whose
arithmetic genuinely divides by a square root, is embedded over the reals.
-/

namespace RTS

/-- Shared resource pool: the global gold/wood counters (`gameResources`). -/
structure Pool where
  gold : Int
  wood : Int
deriving DecidableEq

/-- Resource kinds carried by `ResourceComponent.type` (`gold | wood`). -/
inductive RType where
  | gold
  | wood
deriving DecidableEq

/-- State of a `ResourceComponent` (a resource node). -/
structure NodeState where
  rtype : RType
  amount : Int
  maxAmount : Int
  depleted : Bool
deriving DecidableEq

/-- Constructor of `ResourceComponent`: `amount = maxAmount = a`, not depleted. -/
def NodeState.fresh (t : RType) (a : Int) : NodeState :=
  ⟨t, a, a, false⟩

/-- `ResourceComponent.gather(gatherAmount)`: returns the actually gathered
amount and the updated node.  If depleted, returns 0; otherwise extracts
`min(gatherAmount, amount)` and marks the node depleted when the remaining
amount drops to 0 or below. -/
def NodeState.gather (n : NodeState) (gatherAmount : Int) : Int × NodeState :=
  if n.depleted then (0, n)
  else
    let actual := min gatherAmount n.amount
    let remaining := n.amount - actual
    (actual, { n with amount := remaining,
                      depleted := if remaining ≤ 0 then true else n.depleted })

/-- A 3-D position (`THREE.Vector3`), with rational coordinates. -/
structure Vec3 where
  x : ℚ
  y : ℚ
  z : ℚ
deriving DecidableEq

/-- Squared Euclidean distance between two positions. -/
def distSq (p q : Vec3) : ℚ :=
  (p.x - q.x) * (p.x - q.x) + (p.y - q.y) * (p.y - q.y) + (p.z - q.z) * (p.z - q.z)

/-- Squared length of a position vector (`position.length()` squared). -/
def lenSq (p : Vec3) : ℚ :=
  p.x * p.x + p.y * p.y + p.z * p.z

/-- State of a `GatheringComponent`. -/
structure GatherState where
  gatherRate : Int
  carryCapacity : Int
  currentCarry : Int
  resourceType : Option RType
  targetResourceId : Option Nat
  isGathering : Bool
  gatherTimer : ℚ
deriving DecidableEq

/-- Constructor of `GatheringComponent(gatherRate, carryCapacity)`. -/
def GatherState.fresh (rate cap : Int) : GatherState :=
  ⟨rate, cap, 0, none, none, false, 0⟩

/-- Registry view of the resource-node entities: id, `ResourceComponent`,
`TransformComponent` position. -/
abbrev Nodes := List (Nat × NodeState × Vec3)

/-- `world.getEntity(id)` followed by fetching its Resource and Transform
components (absent entity, or entity missing either component, yields none). -/
def resolveNode (nodes : Nodes) (i : Nat) : Option (NodeState × Vec3) :=
  (nodes.find? (fun e => e.1 == i)).map (fun e => e.2)

/-- Write back the mutated `ResourceComponent` of node `i`. -/
def updateNodeAt (nodes : Nodes) (i : Nat) (n : NodeState) : Nodes :=
  nodes.map (fun e => if e.1 == i then (e.1, n, e.2.2) else e)

/-- The worker's `MovementComponent` fields touched by the gathering system. -/
structure MoveRef where
  isMoving : Bool
  targetPos : Vec3
deriving DecidableEq

/-- `ResourceGatheringSystem.findNearestResource`: scan all resource entities,
skip depleted ones, keep the strictly nearest one within distance 20
(squared: 400); ties are broken by the first node encountered in scan order. -/
def findNearestResource (pos : Vec3) (nodes : Nodes) : Option (Nat × Vec3) :=
  (nodes.foldl
    (fun acc e =>
      if e.2.1.depleted then acc
      else
        match acc with
        | none => if distSq pos e.2.2 < 400 then some (e.1, e.2.2, distSq pos e.2.2) else none
        | some best =>
          if distSq pos e.2.2 < best.2.2 ∧ distSq pos e.2.2 < 400 then
            some (e.1, e.2.2, distSq pos e.2.2)
          else some best)
    none).map (fun r => (r.1, r.2.1))

/-- Deposit step of `ResourceGatheringSystem.update`: if carrying at or above
capacity, not moving, and within distance 3 of the origin (squared: 9), add
the carried amount to the pool under the carried kind (no kind: add nothing),
then reset carry, carried kind and the gathering flag. -/
def depositStep (pool : Pool) (pos : Vec3) (mv : MoveRef) (g : GatherState) :
    Pool × GatherState :=
  if g.carryCapacity ≤ g.currentCarry ∧ mv.isMoving = false then
    if lenSq pos < 9 then
      (match g.resourceType with
       | some RType.gold => { pool with gold := pool.gold + g.currentCarry }
       | some RType.wood => { pool with wood := pool.wood + g.currentCarry }
       | none => pool,
       { g with currentCarry := 0, resourceType := none, isGathering := false })
    else (pool, g)
  else (pool, g)

/-- Gather step of `ResourceGatheringSystem.update`: with a target set and not
moving, resolve the node; in range (distance < 2, squared: 4) and not depleted,
accumulate the timer and, each time it crosses 1 second, gather, record the
carried kind and reset the timer — on reaching capacity clear flag and target
and order movement to the base `(0, 0.5, 0)`; a resolving depleted node clears
target and flag; a non-resolving node is left alone. -/
def gatherStep (dt : ℚ) (nodes : Nodes) (pos : Vec3) (mv : MoveRef) (g : GatherState) :
    Nodes × GatherState × MoveRef :=
  match g.targetResourceId with
  | none => (nodes, g, mv)
  | some i =>
    if mv.isMoving then (nodes, g, mv)
    else
      match resolveNode nodes i with
      | none => (nodes, g, mv)
      | some (n, npos) =>
        if distSq pos npos < 4 ∧ n.depleted = false then
          if 1 ≤ g.gatherTimer + dt then
            if g.carryCapacity ≤ g.currentCarry + (n.gather g.gatherRate).1 then
              (updateNodeAt nodes i (n.gather g.gatherRate).2,
               { g with currentCarry := g.currentCarry + (n.gather g.gatherRate).1,
                        resourceType := some n.rtype, gatherTimer := 0,
                        isGathering := false, targetResourceId := none },
               { mv with isMoving := true, targetPos := ⟨0, 1/2, 0⟩ })
            else
              (updateNodeAt nodes i (n.gather g.gatherRate).2,
               { g with isGathering := true,
                        currentCarry := g.currentCarry + (n.gather g.gatherRate).1,
                        resourceType := some n.rtype, gatherTimer := 0 },
               mv)
          else (nodes, { g with isGathering := true, gatherTimer := g.gatherTimer + dt }, mv)
        else if n.depleted then
          (nodes, { g with targetResourceId := none, isGathering := false }, mv)
        else (nodes, g, mv)

/-- Auto-acquire step of `ResourceGatheringSystem.update`: when idle (not
gathering, not moving, carrying nothing) target the nearest non-depleted node
within range and order movement towards it. -/
def autoStep (nodes : Nodes) (pos : Vec3) (mv : MoveRef) (g : GatherState) :
    GatherState × MoveRef :=
  if g.isGathering = false ∧ mv.isMoving = false ∧ g.currentCarry = 0 then
    match findNearestResource pos nodes with
    | some r => ({ g with targetResourceId := some r.1 },
                 { mv with isMoving := true, targetPos := r.2 })
    | none => (g, mv)
  else (g, mv)

/-- The slice of the world the gathering system reads and writes for one
worker: the shared pool, the resource-node registry, the worker's
`GatheringComponent` and its `MovementComponent`. -/
structure GW where
  pool : Pool
  nodes : Nodes
  g : GatherState
  mv : MoveRef
deriving DecidableEq

/-- One tick of `ResourceGatheringSystem.update` for a single worker at
position `pos`: deposit, then gather, then auto-acquire, in this order, each
step reading the state the previous one left. -/
def gatherTick (dt : ℚ) (pos : Vec3) (w : GW) : GW :=
  let d := depositStep w.pool pos w.mv w.g
  let r := gatherStep dt w.nodes pos w.mv d.2
  let a := autoStep r.1 pos r.2.2 r.2.1
  ⟨d.1, r.1, a.1, a.2⟩

/-- Well-formed resource node: non-negative amount, positive unless depleted.
Every node constructed by the factories (amount 500 or 300) is well-formed,
and `NodeState.gather` preserves well-formedness. -/
def NodeWF (n : NodeState) : Prop :=
  0 ≤ n.amount ∧ (n.depleted = false → 0 < n.amount)

/-- All nodes of a registry view are well-formed. -/
def NodesWF (nodes : Nodes) : Prop :=
  ∀ e ∈ nodes, NodeWF e.2.1

/-- States of a `GatheringComponent` reachable from a freshly constructed
component by the gathering system's per-tick update.  The environment (the
worker's position and movement flags, the pool, and the node registry — all
mutated by other systems between ticks) is arbitrary at each step, subject to
every node being well-formed. -/
inductive GatherReachable (rate cap : Int) : GatherState → Prop
  | init : GatherReachable rate cap (GatherState.fresh rate cap)
  | step (g : GatherState) (dt : ℚ) (pos : Vec3) (pool : Pool) (nodes : Nodes)
      (mv : MoveRef) (hwf : NodesWF nodes) (hr : GatherReachable rate cap g) :
      GatherReachable rate cap (gatherTick dt pos ⟨pool, nodes, g, mv⟩).g

/-- Invariant of the gathering component maintained by `gatherTick` (for a
component with positive gather rate and non-negative capacity, against
well-formed nodes). -/
def GatherInv (g : GatherState) : Prop :=
  0 < g.gatherRate ∧ 0 ≤ g.carryCapacity ∧
  0 ≤ g.currentCarry ∧ g.currentCarry ≤ g.carryCapacity + g.gatherRate ∧
  (g.resourceType ≠ none ↔ 0 < g.currentCarry) ∧
  (g.targetResourceId ≠ none → g.currentCarry < g.carryCapacity ∨ g.currentCarry = 0)

theorem nodeWF_of_resolve {nodes : Nodes} {i : Nat} {n : NodeState} {npos : Vec3}
    (hres : resolveNode nodes i = some (n, npos)) (hwf : NodesWF nodes) : NodeWF n := by
  unfold resolveNode at hres
  cases hfind : nodes.find? (fun e => e.1 == i) with
  | none => rw [hfind] at hres; exact absurd hres (by simp)
  | some e =>
    rw [hfind] at hres
    have he2 : e.2 = (n, npos) := by simpa using hres
    have := hwf e (List.mem_of_find?_eq_some hfind)
    rw [he2] at this
    exact this

theorem gather_amount_pos {n : NodeState} {r : Int} (hdep : n.depleted = false)
    (hamt : 0 < n.amount) (hr : 0 < r) : 0 < (n.gather r).1 ∧ (n.gather r).1 ≤ r := by
  unfold NodeState.gather
  rw [hdep]
  rw [if_neg Bool.false_ne_true]
  dsimp only
  constructor
  · exact lt_min hr hamt
  · exact min_le_left _ _

theorem depositStep_inv (pool : Pool) (pos : Vec3) (mv : MoveRef) (g : GatherState)
    (hg : GatherInv g) : GatherInv (depositStep pool pos mv g).2 := by
  obtain ⟨h1, h2, h3, h4, h5, h6⟩ := hg
  unfold depositStep GatherInv
  split
  · split
    · dsimp only
      exact ⟨h1, h2, le_refl 0, by omega, by simp, fun _ => Or.inr rfl⟩
    · exact ⟨h1, h2, h3, h4, h5, h6⟩
  · exact ⟨h1, h2, h3, h4, h5, h6⟩

theorem autoStep_inv (nodes : Nodes) (pos : Vec3) (mv : MoveRef) (g : GatherState)
    (hg : GatherInv g) : GatherInv (autoStep nodes pos mv g).1 := by
  obtain ⟨h1, h2, h3, h4, h5, h6⟩ := hg
  unfold autoStep
  split
  · rename_i hcond
    cases hfind : findNearestResource pos nodes with
    | none => exact ⟨h1, h2, h3, h4, h5, h6⟩
    | some r => exact ⟨h1, h2, h3, h4, h5, fun _ => Or.inr hcond.2.2⟩
  · exact ⟨h1, h2, h3, h4, h5, h6⟩

theorem gatherStep_inv (dt : ℚ) (nodes : Nodes) (pos : Vec3) (mv : MoveRef) (g : GatherState)
    (hg : GatherInv g) (hwf : NodesWF nodes) : GatherInv (gatherStep dt nodes pos mv g).2.1 := by
  obtain ⟨h1, h2, h3, h4, h5, h6⟩ := hg
  unfold gatherStep GatherInv
  cases ht : g.targetResourceId with
  | none => exact ⟨h1, h2, h3, h4, h5, h6⟩
  | some i =>
    have htgt : g.currentCarry < g.carryCapacity ∨ g.currentCarry = 0 :=
      h6 (by rw [ht]; exact Option.some_ne_none i)
    simp only
    by_cases hmv : mv.isMoving
    · simp only [if_pos hmv]
      exact ⟨h1, h2, h3, h4, h5, fun _ => htgt⟩
    · simp only [if_neg hmv]
      cases hres : resolveNode nodes i with
      | none => exact ⟨h1, h2, h3, h4, h5, fun _ => htgt⟩
      | some pr =>
        obtain ⟨n, npos⟩ := pr
        simp only
        by_cases hc : distSq pos npos < 4 ∧ n.depleted = false
        · simp only [if_pos hc]
          by_cases htm : (1:ℚ) ≤ g.gatherTimer + dt
          · simp only [if_pos htm]
            have hwfn := nodeWF_of_resolve hres hwf
            have hamt : 0 < n.amount := hwfn.2 hc.2
            have hpos := gather_amount_pos hc.2 hamt h1
            by_cases hfull : g.carryCapacity ≤ g.currentCarry + (n.gather g.gatherRate).1
            · simp only [if_pos hfull]
              refine ⟨h1, h2, by omega, by omega, ?_, fun hn => absurd rfl hn⟩
              simp only [ne_eq, Option.some_ne_none, not_false_eq_true, true_iff]
              omega
            · simp only [if_neg hfull]
              refine ⟨h1, h2, by omega, by omega, ?_, fun _ => by omega⟩
              simp only [ne_eq, Option.some_ne_none, not_false_eq_true, true_iff]
              omega
          · simp only [if_neg htm]
            exact ⟨h1, h2, h3, h4, h5, fun _ => htgt⟩
        · simp only [if_neg hc]
          split
          · dsimp only
            exact ⟨h1, h2, h3, h4, h5, fun hn => absurd rfl hn⟩
          · exact ⟨h1, h2, h3, h4, h5, fun _ => htgt⟩

theorem gatherTick_inv (dt : ℚ) (pos : Vec3) (w : GW) (hg : GatherInv w.g)
    (hwf : NodesWF w.nodes) : GatherInv (gatherTick dt pos w).g := by
  have h := autoStep_inv (gatherStep dt w.nodes pos w.mv (depositStep w.pool pos w.mv w.g).2).1
    pos (gatherStep dt w.nodes pos w.mv (depositStep w.pool pos w.mv w.g).2).2.2
    (gatherStep dt w.nodes pos w.mv (depositStep w.pool pos w.mv w.g).2).2.1
    (gatherStep_inv dt w.nodes pos w.mv _ (depositStep_inv w.pool pos w.mv w.g hg) hwf)
  simpa [gatherTick] using h

theorem gatherInv_of_reachable {rate cap : Int} {g : GatherState} (h1 : 0 < rate)
    (h2 : 0 ≤ cap) (hr : GatherReachable rate cap g) : GatherInv g := by
  induction hr with
  | init =>
    unfold GatherInv GatherState.fresh
    dsimp only
    exact ⟨h1, h2, le_refl 0, by omega, by simp, by simp⟩
  | step g dt pos pool nodes mv hwf _ ih => exact gatherTick_inv dt pos ⟨pool, nodes, g, mv⟩ ih hwf

/-- Node registry used by the C4 counterexample run. -/
def c4nodes : Nodes := [(1, NodeState.fresh RType.gold 100, ⟨1, 0, 0⟩)]

/-- Gathering state after the auto-acquire tick of the C4 run. -/
def c4mid : GatherState := ⟨20, 10, 0, none, some 1, false, 0⟩

/-- Gathering state after the gather tick of the C4 run: the carry (20)
exceeds the capacity (10). -/
def c4bad : GatherState := ⟨20, 10, 20, some RType.gold, none, false, 0⟩

theorem c4nodes_wf : NodesWF c4nodes := by
  intro e he
  simp only [c4nodes, List.mem_singleton] at he
  subst he
  exact ⟨by norm_num [NodeState.fresh], fun _ => by norm_num [NodeState.fresh]⟩

theorem c4_tick1 :
    (gatherTick 0 ⟨9, 0, 0⟩ ⟨⟨0, 0⟩, c4nodes, GatherState.fresh 20 10, ⟨false, ⟨0, 0, 0⟩⟩⟩).g
      = c4mid := by
  norm_num [gatherTick, depositStep, gatherStep, autoStep, resolveNode, findNearestResource,
    updateNodeAt, NodeState.gather, NodeState.fresh, GatherState.fresh, distSq, lenSq,
    c4nodes, c4mid, List.find?]

theorem c4_tick2 :
    (gatherTick 1 ⟨1, 0, 0⟩ ⟨⟨0, 0⟩, c4nodes, c4mid, ⟨false, ⟨0, 0, 0⟩⟩⟩).g = c4bad := by
  norm_num [gatherTick, depositStep, gatherStep, autoStep, resolveNode, findNearestResource,
    updateNodeAt, NodeState.gather, NodeState.fresh, distSq, lenSq, c4nodes, c4mid, c4bad,
    List.find?]

/-- C4 (counterexample): a gathering component freshly constructed with
`gatherRate = 20`, `carryCapacity = 10` reaches, in two ticks of the gathering
system (auto-acquire a well-formed gold node with amount 100, then one gather
event on it), a state whose `currentCarry` is 20, strictly above
`carryCapacity` — the gather branch adds `min(gatherRate, remaining)` without
first capping against the remaining carry headroom, so the claimed bound
`currentCarry ≤ carryCapacity` fails. -/
theorem C4_carry_bound_counterexample :
    GatherReachable 20 10 c4bad ∧ c4bad.currentCarry = 20 ∧ c4bad.carryCapacity = 10 ∧
      ¬(c4bad.currentCarry ≤ c4bad.carryCapacity) := by
  refine ⟨?_, rfl, rfl, by norm_num [c4bad]⟩
  have h1 : GatherReachable 20 10
      (gatherTick 0 ⟨9, 0, 0⟩ ⟨⟨0, 0⟩, c4nodes, GatherState.fresh 20 10, ⟨false, ⟨0, 0, 0⟩⟩⟩).g :=
    GatherReachable.step (GatherState.fresh 20 10) 0 ⟨9, 0, 0⟩ ⟨0, 0⟩ c4nodes
      ⟨false, ⟨0, 0, 0⟩⟩ c4nodes_wf GatherReachable.init
  rw [c4_tick1] at h1
  have h2 : GatherReachable 20 10
      (gatherTick 1 ⟨1, 0, 0⟩ ⟨⟨0, 0⟩, c4nodes, c4mid, ⟨false, ⟨0, 0, 0⟩⟩⟩).g :=
    GatherReachable.step c4mid 1 ⟨1, 0, 0⟩ ⟨0, 0⟩ c4nodes ⟨false, ⟨0, 0, 0⟩⟩ c4nodes_wf h1
  rw [c4_tick2] at h2
  exact h2

/-- C4 (amended): for every gathering component with positive gather rate and
non-negative carry capacity, in every state reachable by the gathering
system's per-tick update from a freshly constructed component (against
well-formed resource nodes), `0 ≤ currentCarry ≤ carryCapacity + gatherRate`,
and `resourceType` is non-null iff `currentCarry > 0`; the originally claimed
upper bound `carryCapacity` must be weakened by one `gatherRate`, since a
single gather event can overshoot the capacity. -/
theorem C4_carry_bound_amended (rate cap : Int) (g : GatherState) (h1 : 0 < rate)
    (h2 : 0 ≤ cap) (hr : GatherReachable rate cap g) :
    0 ≤ g.currentCarry ∧ g.currentCarry ≤ g.carryCapacity + g.gatherRate ∧
      (g.resourceType ≠ none ↔ 0 < g.currentCarry) := by
  obtain ⟨_, _, h3, h4, h5, _⟩ := gatherInv_of_reachable h1 h2 hr
  exact ⟨h3, h4, h5⟩

/-- Witness for C4 (amended) at the default construction
`GatheringComponent(10, 10)`. -/
theorem C4_carry_bound_amended_witness :
    (0:Int) < 10 ∧ (0:Int) ≤ 10 ∧ GatherReachable 10 10 (GatherState.fresh 10 10) ∧
      (0 ≤ (GatherState.fresh 10 10).currentCarry ∧
       (GatherState.fresh 10 10).currentCarry ≤
         (GatherState.fresh 10 10).carryCapacity + (GatherState.fresh 10 10).gatherRate ∧
       ((GatherState.fresh 10 10).resourceType ≠ none ↔
         0 < (GatherState.fresh 10 10).currentCarry)) :=
  ⟨by norm_num, by norm_num, GatherReachable.init,
   C4_carry_bound_amended 10 10 (GatherState.fresh 10 10) (by norm_num) (by norm_num)
     GatherReachable.init⟩

/-- Concrete tick of the gathering system in which the worker's target node
id (5) does not resolve in the (empty) registry. -/
def c5run : GW :=
  gatherTick 1 ⟨0, 0, 0⟩
    ⟨⟨0, 0⟩, [], ⟨10, 10, 3, some RType.gold, some 5, true, 0⟩, ⟨false, ⟨0, 0, 0⟩⟩⟩

/-- C5 (counterexample): a worker whose target node id (5) does not resolve in
the registry (empty node list), with the gathering flag set and a partial
carry, is left completely unchanged by the gathering tick: the target
reference and gathering flag are NOT cleared, contrary to the claim that a
non-resolving node is handled like a depleted one. -/
theorem C5_vanished_target_counterexample :
    c5run.g.targetResourceId = some 5 ∧ c5run.g.isGathering = true := by
  constructor <;>
    norm_num [c5run, gatherTick, depositStep, gatherStep, autoStep, resolveNode,
      findNearestResource, distSq, lenSq, List.find?]

/-- C5 (amended): with a target set and the worker not moving, (a) a node that
resolves but is depleted makes the tick clear the target reference and the
gathering flag (given a partial non-zero carry, which rules out the deposit
and auto-acquire branches acting in the same tick), while (b) a target node
that does not resolve in the registry leaves the whole gathering slice of the
world — pool, nodes, gathering component and movement component — unchanged
(the tick never faults, but it also clears nothing). -/
theorem C5_stale_target_handling :
    (∀ (dt : ℚ) (pos : Vec3) (pool : Pool) (nodes : Nodes) (mv : MoveRef) (g : GatherState)
       (i : Nat) (n : NodeState) (npos : Vec3),
       g.targetResourceId = some i → mv.isMoving = false →
       resolveNode nodes i = some (n, npos) → n.depleted = true →
       g.currentCarry < g.carryCapacity → g.currentCarry ≠ 0 →
       (gatherTick dt pos ⟨pool, nodes, g, mv⟩).g.targetResourceId = none ∧
       (gatherTick dt pos ⟨pool, nodes, g, mv⟩).g.isGathering = false) ∧
    (∀ (dt : ℚ) (pos : Vec3) (pool : Pool) (nodes : Nodes) (mv : MoveRef) (g : GatherState)
       (i : Nat),
       g.targetResourceId = some i → mv.isMoving = false →
       resolveNode nodes i = none → g.isGathering = true →
       g.currentCarry < g.carryCapacity →
       gatherTick dt pos ⟨pool, nodes, g, mv⟩ = ⟨pool, nodes, g, mv⟩) := by
  constructor
  · intro dt pos pool nodes mv g i n npos ht hmv hres hdep hcc hnz
    have hd : depositStep pool pos mv g = (pool, g) := by
      unfold depositStep
      rw [if_neg (fun hco => absurd hco.1 (not_le.2 hcc))]
    have hgs : gatherStep dt nodes pos mv g =
        (nodes, { g with targetResourceId := none, isGathering := false }, mv) := by
      unfold gatherStep
      rw [ht]
      simp only [hmv, if_false, Bool.false_eq_true]
      rw [hres]
      simp only
      rw [if_neg (fun hco => by rw [hdep] at hco; exact absurd hco.2 (by simp))]
      rw [if_pos hdep]
    have ha : autoStep nodes pos mv { g with targetResourceId := none, isGathering := false } =
        ({ g with targetResourceId := none, isGathering := false }, mv) := by
      unfold autoStep
      rw [if_neg (fun hco => absurd hco.2.2 hnz)]
    constructor <;> simp [gatherTick, hd, hgs, ha]
  · intro dt pos pool nodes mv g i ht hmv hres hg hcc
    have hd : depositStep pool pos mv g = (pool, g) := by
      unfold depositStep
      rw [if_neg (fun hco => absurd hco.1 (not_le.2 hcc))]
    have hgs : gatherStep dt nodes pos mv g = (nodes, g, mv) := by
      unfold gatherStep
      rw [ht]
      simp only [hmv, if_false, Bool.false_eq_true]
      rw [hres]
    have ha : autoStep nodes pos mv g = (g, mv) := by
      unfold autoStep
      rw [if_neg (fun hco => by rw [hg] at hco; exact absurd hco.1 (by simp))]
    simp [gatherTick, hd, hgs, ha]

/-- Concrete tick of the gathering system in which the worker's target node
(id 3) resolves but is depleted. -/
def c5runDepleted : GW :=
  gatherTick 1 ⟨0, 0, 0⟩
    ⟨⟨0, 0⟩, [(3, ⟨RType.gold, 0, 5, true⟩, ⟨1, 0, 0⟩)],
     ⟨10, 10, 3, some RType.gold, some 3, true, 0⟩, ⟨false, ⟨0, 0, 0⟩⟩⟩

/-- Witness for C5 at a concrete depleted node (part a) and a concrete
non-resolving target (part b). -/
theorem C5_stale_target_handling_witness :
    ((⟨10, 10, 3, some RType.gold, some 3, true, 0⟩ : GatherState).targetResourceId = some 3 ∧
     (⟨false, ⟨0, 0, 0⟩⟩ : MoveRef).isMoving = false ∧
     resolveNode [(3, ⟨RType.gold, 0, 5, true⟩, ⟨1, 0, 0⟩)] 3 =
       some (⟨RType.gold, 0, 5, true⟩, ⟨1, 0, 0⟩) ∧
     (⟨RType.gold, 0, 5, true⟩ : NodeState).depleted = true ∧
     (⟨10, 10, 3, some RType.gold, some 3, true, 0⟩ : GatherState).currentCarry <
       (⟨10, 10, 3, some RType.gold, some 3, true, 0⟩ : GatherState).carryCapacity ∧
     (⟨10, 10, 3, some RType.gold, some 3, true, 0⟩ : GatherState).currentCarry ≠ 0 ∧
     c5runDepleted.g.targetResourceId = none) ∧
    gatherTick 1 ⟨0, 0, 0⟩
        ⟨⟨0, 0⟩, [], ⟨10, 10, 3, some RType.gold, some 9, true, 0⟩, ⟨false, ⟨0, 0, 0⟩⟩⟩ =
      ⟨⟨0, 0⟩, [], ⟨10, 10, 3, some RType.gold, some 9, true, 0⟩, ⟨false, ⟨0, 0, 0⟩⟩⟩ := by
  constructor
  · refine ⟨rfl, rfl, rfl, rfl, by norm_num, by norm_num, ?_⟩
    exact (C5_stale_target_handling.1 1 ⟨0, 0, 0⟩ ⟨0, 0⟩
      [(3, ⟨RType.gold, 0, 5, true⟩, ⟨1, 0, 0⟩)] ⟨false, ⟨0, 0, 0⟩⟩
      ⟨10, 10, 3, some RType.gold, some 3, true, 0⟩ 3 ⟨RType.gold, 0, 5, true⟩ ⟨1, 0, 0⟩
      rfl rfl rfl rfl (by norm_num) (by norm_num)).1
  · exact C5_stale_target_handling.2 1 ⟨0, 0, 0⟩ ⟨0, 0⟩ [] ⟨false, ⟨0, 0, 0⟩⟩
      ⟨10, 10, 3, some RType.gold, some 9, true, 0⟩ 9 rfl rfl rfl rfl (by norm_num)

/-- Start state of the C9 run: a worker with `carryCapacity = 10`,
`gatherRate = 10`, in gathering range (squared distance 1 < 4) of gold node 1
with amount 5, node set as target, not moving, gather timer at 0. -/
def c9start : GW :=
  ⟨⟨0, 0⟩, [(1, NodeState.fresh RType.gold 5, ⟨5, 0, 1⟩)],
   ⟨10, 10, 0, none, some 1, false, 0⟩, ⟨false, ⟨0, 0, 0⟩⟩⟩

/-- The C9 run after the tick on which the first gather interval elapses
(`dt = 1`, timer reaches 1). -/
def c9afterOne : GW := gatherTick 1 ⟨5, 0, 0⟩ c9start

/-- The C9 run one tick further (same worker position, still not moving). -/
def c9afterTwo : GW := gatherTick 1 ⟨5, 0, 0⟩ c9afterOne

/-- C9 (counterexample): at the end of the tick on which the first gather
interval elapses, the worker has gathered 5 gold and the node is depleted at
amount 0 as claimed, but the worker's target resource reference still points
at node 1 — it is NOT cleared on that tick, because the carry (5) is below
capacity (10) and the depleted-node branch is not reached in the same tick as
the gather event. -/
theorem C9_deplete_scenario_counterexample :
    c9afterOne.g.currentCarry = 5 ∧
    resolveNode c9afterOne.nodes 1 = some (⟨RType.gold, 0, 5, true⟩, ⟨5, 0, 1⟩) ∧
    c9afterOne.g.targetResourceId = some 1 ∧ c9afterOne.g.isGathering = true := by
  refine ⟨?_, ?_, ?_, ?_⟩ <;>
    norm_num [c9afterOne, c9start, gatherTick, depositStep, gatherStep, autoStep, resolveNode,
      findNearestResource, updateNodeAt, NodeState.gather, NodeState.fresh, distSq, lenSq,
      List.find?]

/-- C9 (amended): in the scenario of the claim, the end of the first tick
leaves `currentCarry = 5`, the node depleted at amount 0, and the target
still referencing the node; the target reference and gathering flag are
cleared only on the NEXT tick, by the depleted-node branch, with the carry
still 5 and the pool untouched. -/
theorem C9_deplete_scenario_amended :
    c9afterOne.g.currentCarry = 5 ∧
    resolveNode c9afterOne.nodes 1 = some (⟨RType.gold, 0, 5, true⟩, ⟨5, 0, 1⟩) ∧
    c9afterOne.g.targetResourceId = some 1 ∧
    c9afterTwo.g.targetResourceId = none ∧ c9afterTwo.g.isGathering = false ∧
    c9afterTwo.g.currentCarry = 5 ∧ c9afterTwo.pool = ⟨0, 0⟩ := by
  refine ⟨?_, ?_, ?_, ?_, ?_, ?_, ?_⟩ <;>
    norm_num [c9afterTwo, c9afterOne, c9start, gatherTick, depositStep, gatherStep, autoStep,
      resolveNode, findNearestResource, updateNodeAt, NodeState.gather, NodeState.fresh,
      distSq, lenSq, List.find?]

/-- C10: the deposit step, applied to a worker satisfying the deposit
condition (carry at or above capacity, not moving, within the deposit radius
of the base) whose carried-resource kind is null, leaves the shared resource
pool unchanged while still resetting the carry to 0 and clearing the
gathering flag: the carried amount is silently discarded. -/
theorem C10_null_kind_deposit_discards (pool : Pool) (pos : Vec3) (mv : MoveRef)
    (g : GatherState) (hk : g.resourceType = none) (hc : g.carryCapacity ≤ g.currentCarry)
    (hm : mv.isMoving = false) (hb : lenSq pos < 9) :
    (depositStep pool pos mv g).1 = pool ∧
    (depositStep pool pos mv g).2.currentCarry = 0 ∧
    (depositStep pool pos mv g).2.isGathering = false := by
  unfold depositStep
  rw [if_pos ⟨hc, hm⟩, if_pos hb, hk]
  exact ⟨rfl, rfl, rfl⟩

/-- Witness for C10: a worker carrying 12 of a null kind over capacity 10,
standing at squared distance 1 from the base, leaves the pool at (7, 4). -/
theorem C10_null_kind_deposit_discards_witness :
    ((⟨10, 10, 12, none, none, false, 0⟩ : GatherState).resourceType = none ∧
     (⟨10, 10, 12, none, none, false, 0⟩ : GatherState).carryCapacity ≤
       (⟨10, 10, 12, none, none, false, 0⟩ : GatherState).currentCarry ∧
     (⟨false, ⟨0, 0, 0⟩⟩ : MoveRef).isMoving = false ∧
     lenSq ⟨1, 0, 0⟩ < 9) ∧
    (depositStep ⟨7, 4⟩ ⟨1, 0, 0⟩ ⟨false, ⟨0, 0, 0⟩⟩ ⟨10, 10, 12, none, none, false, 0⟩).1 =
      ⟨7, 4⟩ ∧
    (depositStep ⟨7, 4⟩ ⟨1, 0, 0⟩ ⟨false, ⟨0, 0, 0⟩⟩
      ⟨10, 10, 12, none, none, false, 0⟩).2.currentCarry = 0 ∧
    (depositStep ⟨7, 4⟩ ⟨1, 0, 0⟩ ⟨false, ⟨0, 0, 0⟩⟩
      ⟨10, 10, 12, none, none, false, 0⟩).2.isGathering = false := by
  have hb : lenSq (⟨1, 0, 0⟩ : Vec3) < 9 := by norm_num [lenSq]
  have h := C10_null_kind_deposit_discards ⟨7, 4⟩ ⟨1, 0, 0⟩ ⟨false, ⟨0, 0, 0⟩⟩
    ⟨10, 10, 12, none, none, false, 0⟩ rfl (by norm_num) rfl hb
  exact ⟨⟨rfl, by norm_num, rfl, hb⟩, h.1, h.2.1, h.2.2⟩

/-- Registry record of one `Entity`: id, `enabled` flag, and the set of
attached component kinds (kinds as numeric tags; one component per kind). -/
structure EntityRec where
  id : Nat
  enabled : Bool
  comps : List Nat
deriving DecidableEq

/-- `World` state: the entity registry (a map in insertion order), the id
counter (`Entity.nextId`), and the pending-destruction queue
(`entitiesToDestroy`, a `Set`, modelled as an ordered duplicate-free list).
The `ext` field stands for external mutable state captured by system closures
(such as `gameResources` or a recording sink); the `World` code itself never
touches it. -/
structure WState where
  entities : List EntityRec
  nextId : Nat
  toDestroy : List Nat
  ext : List (List Nat)

/-- A registered `System`: required component kinds, priority, enabled flag,
and the per-frame update, which receives the delta time, the matched entity
ids and the world it may mutate (systems hold a reference to the `World`). -/
structure Sys where
  required : List Nat
  priority : Int
  enabled : Bool
  run : ℚ → List Nat → WState → WState

/-- `Entity.hasComponents(...types)`: the entity has every required kind. -/
def EntityRec.hasComps (e : EntityRec) (req : List Nat) : Bool :=
  req.all (fun t => e.comps.contains t)

/-- `World.getEntity(id)`. -/
def getEntityW (w : WState) (i : Nat) : Option EntityRec :=
  w.entities.find? (fun e => e.id == i)

/-- `World.getEnabledEntities()` at the start of `World.update`, reduced to
the entity ids: the snapshot array holds references to the live entity
objects, so later reads through it see each entity's current state; keeping
the ids and looking the entities up at read time is observationally the same
(a destroyed entity is disabled, so a lookup that fails and a reference whose
object was disabled are filtered alike). -/
def tickSnap (w : WState) : List Nat :=
  (w.entities.filter (fun e => e.enabled)).map (fun e => e.id)

/-- The per-system filter inside `SystemManager.update`: from the snapshot
array, the entities that are (currently) enabled and have all of the
system's required component kinds. -/
def matchedFrom (w : WState) (req : List Nat) (snap : List Nat) : List Nat :=
  snap.filter (fun i =>
    match getEntityW w i with
    | some e => e.enabled && e.hasComps req
    | none => false)

/-- The loop of `SystemManager.update(deltaTime, entities)`: each enabled
system, in list order, is invoked with the matched subset of the snapshot
computed against the current registry state. -/
def runSystems (dt : ℚ) (snap : List Nat) : List Sys → WState → WState
  | [], w => w
  | s :: rest, w =>
    if s.enabled then runSystems dt snap rest (s.run dt (matchedFrom w s.required snap) w)
    else runSystems dt snap rest w

/-- `World.processDestructions()`: remove every queued entity from the
registry (via `removeEntity`, which destroys it and deletes it from the map),
then clear the queue. -/
def processDestructions (w : WState) : WState :=
  { w with entities := w.entities.filter (fun e => !(w.toDestroy.contains e.id)),
           toDestroy := [] }

/-- `World.update(deltaTime)`: take the enabled-entities snapshot once, run
all systems over it, then flush the destruction queue. -/
def updateW (systems : List Sys) (dt : ℚ) (w : WState) : WState :=
  processDestructions (runSystems dt (tickSnap w) systems w)

/-- `World.destroyEntity(id)`: add the id to the destruction queue
(`Set.add`: appended only if not already present). -/
def destroyEntityW (w : WState) (i : Nat) : WState :=
  { w with toDestroy := if w.toDestroy.contains i then w.toDestroy else w.toDestroy ++ [i] }

/-- `World.createEntity()`: a fresh enabled entity with no components,
appended to the registry under the next id. -/
def createEntityW (w : WState) : WState :=
  { w with entities := w.entities ++ [⟨w.nextId, true, []⟩], nextId := w.nextId + 1 }

/-- `Entity.addComponent`: attach kind `t` to entity `i` (one instance per
kind; adding an already-present kind overwrites, so the kind set gains `t`
at most once). -/
def addComponentW (w : WState) (i t : Nat) : WState :=
  { w with entities := w.entities.map (fun e =>
      if e.id == i then
        { e with comps := if e.comps.contains t then e.comps else e.comps ++ [t] }
      else e) }

/-- `SystemManager.register`: insert the new system into the priority-sorted
list, after all systems of priority not greater than its own (the JS
`sort` by `(a.priority || 0) - (b.priority || 0)` is stable, so on a list
kept sorted this is where the newcomer lands). -/
def registerSys : List Sys → Sys → List Sys
  | [], s => [s]
  | t :: rest, s => if s.priority < t.priority then s :: t :: rest else t :: registerSys rest s

/-- Spec-words variant of the scheduler loop, for comparison with the code:
here the matched subset is computed from a registry snapshot taken at the
start of each System's own invocation, so entities created or enabled by an
earlier system in the same tick are included. -/
def runSystemsResnap (dt : ℚ) : List Sys → WState → WState
  | [], w => w
  | s :: rest, w =>
    if s.enabled then
      runSystemsResnap dt rest (s.run dt (matchedFrom w s.required (tickSnap w)) w)
    else runSystemsResnap dt rest w

/-- Spec-words variant of `World.update` built on `runSystemsResnap`. -/
def updateResnap (systems : List Sys) (dt : ℚ) (w : WState) : WState :=
  processDestructions (runSystemsResnap dt systems w)

/-- A system that creates one enabled entity and attaches component kind 7
to it (modelled on a factory call from inside a system's update). -/
def creatorSys : Sys :=
  ⟨[], 0, true, fun _ _ w => addComponentW (createEntityW w) w.nextId 7⟩

/-- A system requiring component kind `req` that records the matched entity
list it is passed into the external state. -/
def loggerSys (req : List Nat) : Sys :=
  ⟨req, 1, true, fun _ m w => { w with ext := w.ext ++ [m] }⟩

theorem runSystems_append (dt : ℚ) (snap : List Nat) (l1 l2 : List Sys) (w : WState) :
    runSystems dt snap (l1 ++ l2) w = runSystems dt snap l2 (runSystems dt snap l1 w) := by
  induction l1 generalizing w with
  | nil => rfl
  | cons s rest ih =>
    show runSystems dt snap (s :: (rest ++ l2)) w = _
    simp only [runSystems]
    by_cases hs : s.enabled
    · rw [if_pos hs, if_pos hs, ih]
    · rw [if_neg hs, if_neg hs, ih]

theorem runSystems_ext (dt : ℚ) (snap : List Nat) (l : List Sys) (w : WState)
    (h : ∀ s ∈ l, ∀ (d : ℚ) (m : List Nat) (v : WState), (s.run d m v).ext = v.ext) :
    (runSystems dt snap l w).ext = w.ext := by
  induction l generalizing w with
  | nil => rfl
  | cons s rest ih =>
    simp only [runSystems]
    by_cases hs : s.enabled
    · rw [if_pos hs, ih _ (fun t ht => h t (List.mem_cons_of_mem s ht)),
        h s (List.mem_cons_self s rest)]
    · rw [if_neg hs, ih _ (fun t ht => h t (List.mem_cons_of_mem s ht))]

theorem mem_matchedFrom (w : WState) (req : List Nat) (snap : List Nat) (i : Nat) :
    i ∈ matchedFrom w req snap ↔
      i ∈ snap ∧ ∃ e, getEntityW w i = some e ∧ e.enabled = true ∧ e.hasComps req = true := by
  unfold matchedFrom
  rw [List.mem_filter]
  constructor
  · rintro ⟨hs, hp⟩
    refine ⟨hs, ?_⟩
    cases hg : getEntityW w i with
    | none => rw [hg] at hp; exact absurd hp (by simp)
    | some e =>
      rw [hg] at hp
      simp only [Bool.and_eq_true] at hp
      exact ⟨e, rfl, hp.1, hp.2⟩
  · rintro ⟨hs, e, hg, he, hc⟩
    refine ⟨hs, ?_⟩
    rw [hg]
    simp only [Bool.and_eq_true]
    exact ⟨he, hc⟩

theorem getEntityW_processDestructions (w : WState) (i : Nat) (h : i ∈ w.toDestroy) :
    getEntityW (processDestructions w) i = none := by
  unfold processDestructions getEntityW
  simp only
  rw [List.find?_eq_none]
  intro e he hbeq
  rw [List.mem_filter] at he
  have hid : e.id = i := by simpa using hbeq
  have hcon : w.toDestroy.contains e.id = true := by
    rw [hid]
    exact List.elem_iff.2 h
  rw [hcon] at he
  exact absurd he.2 (by simp)

theorem mem_registerSys {l : List Sys} {s x : Sys} (h : x ∈ registerSys l s) :
    x ∈ l ∨ x = s := by
  induction l with
  | nil =>
    unfold registerSys at h
    right
    exact (List.mem_singleton).1 h
  | cons t rest ih =>
    unfold registerSys at h
    by_cases hp : s.priority < t.priority
    · rw [if_pos hp] at h
      rcases List.mem_cons.1 h with h1 | h2
      · right; exact h1
      · left; exact h2
    · rw [if_neg hp] at h
      rcases List.mem_cons.1 h with h1 | h2
      · left; exact h1 ▸ List.mem_cons_self t rest
      · rcases ih h2 with h3 | h4
        · left; exact List.mem_cons_of_mem t h3
        · right; exact h4

theorem sorted_registerSys (l : List Sys) (s : Sys)
    (h : (l.map Sys.priority).Sorted (· ≤ ·)) :
    ((registerSys l s).map Sys.priority).Sorted (· ≤ ·) := by
  induction l with
  | nil => simp [registerSys]
  | cons t rest ih =>
    rw [List.map_cons, List.sorted_cons] at h
    unfold registerSys
    by_cases hp : s.priority < t.priority
    · rw [if_pos hp, List.map_cons, List.sorted_cons]
      constructor
      · intro b hb
        rw [List.map_cons] at hb
        rcases List.mem_cons.1 hb with h1 | h2
        · exact h1 ▸ le_of_lt hp
        · exact le_trans (le_of_lt hp) (h.1 b h2)
      · rw [List.map_cons, List.sorted_cons]
        exact ⟨h.1, h.2⟩
    · rw [if_neg hp, List.map_cons, List.sorted_cons]
      constructor
      · intro b hb
        rcases List.mem_map.1 hb with ⟨y, hy, rfl⟩
        rcases mem_registerSys hy with h1 | h2
        · exact h.1 y.priority (List.mem_map_of_mem Sys.priority h1)
        · exact h2 ▸ not_lt.1 hp
      · exact ih h.2

/-- State of the world after the tick of the C1 counterexample run: system 1
(`creatorSys`) creates an enabled entity with the component kind required by
system 2 (`loggerSys [7]`), and the log records what system 2 was passed. -/
def c1afterCode : WState := updateW [creatorSys, loggerSys [7]] 1 ⟨[], 0, [], []⟩

/-- The same tick under the spec-words scheduler that re-snapshots at each
system's invocation. -/
def c1afterSpec : WState := updateResnap [creatorSys, loggerSys [7]] 1 ⟨[], 0, [], []⟩

/-- C1 (counterexample): with a first system that creates an enabled entity
carrying the second system's required component kind, the code passes the
second system the empty matched list — the snapshot is taken once at the
start of the tick, before any system runs — whereas the claim's per-invocation
snapshot would pass it the newly created entity (id 0). -/
theorem C1_snapshot_counterexample :
    c1afterCode.ext = [[]] ∧ c1afterSpec.ext = [[0]] ∧
      c1afterCode.ext ≠ c1afterSpec.ext := by
  refine ⟨rfl, rfl, ?_⟩
  intro h
  rw [show c1afterCode.ext = [[]] from rfl, show c1afterSpec.ext = [[0]] from rfl] at h
  simp at h

/-- C1 (amended): (i) with any prefix of systems that leave external state
alone followed by a logging system, one tick of `World.update` passes the
logging system exactly the tick-START snapshot filtered, at that system's
invocation time, by current enabled-and-has-kinds status — entities created
or enabled by earlier systems in the same tick are NOT included, while
entities disabled or stripped by earlier systems are excluded; (ii) the
matched subset is exactly the snapshot ids that currently resolve to an
enabled entity with all required kinds; (iii) after the tick the destruction
queue is empty and every id queued during the tick is gone from the registry;
(iv) registration keeps the system list sorted by ascending priority. -/
theorem C1_schedule_amended :
    (∀ (pre : List Sys) (req : List Nat) (dt : ℚ) (w : WState),
       (∀ s ∈ pre, ∀ (d : ℚ) (m : List Nat) (v : WState), (s.run d m v).ext = v.ext) →
       (updateW (pre ++ [loggerSys req]) dt w).ext
         = w.ext ++ [matchedFrom (runSystems dt (tickSnap w) pre w) req (tickSnap w)]) ∧
    (∀ (w : WState) (req : List Nat) (snap : List Nat) (i : Nat),
       i ∈ matchedFrom w req snap ↔
         i ∈ snap ∧ ∃ e, getEntityW w i = some e ∧ e.enabled = true ∧ e.hasComps req = true) ∧
    (∀ (systems : List Sys) (dt : ℚ) (w : WState),
       (updateW systems dt w).toDestroy = [] ∧
       ∀ i ∈ (runSystems dt (tickSnap w) systems w).toDestroy,
         getEntityW (updateW systems dt w) i = none) ∧
    (∀ (l : List Sys) (s : Sys), (l.map Sys.priority).Sorted (· ≤ ·) →
       ((registerSys l s).map Sys.priority).Sorted (· ≤ ·)) := by
  refine ⟨?_, mem_matchedFrom, ?_, sorted_registerSys⟩
  · intro pre req dt w hpre
    unfold updateW
    rw [runSystems_append]
    have hlog : runSystems dt (tickSnap w) [loggerSys req] (runSystems dt (tickSnap w) pre w)
        = { runSystems dt (tickSnap w) pre w with
            ext := (runSystems dt (tickSnap w) pre w).ext
              ++ [matchedFrom (runSystems dt (tickSnap w) pre w) req (tickSnap w)] } := by
      simp only [runSystems, loggerSys]
      rw [if_pos trivial]
    rw [hlog]
    show (runSystems dt (tickSnap w) pre w).ext
        ++ [matchedFrom (runSystems dt (tickSnap w) pre w) req (tickSnap w)]
      = w.ext ++ [matchedFrom (runSystems dt (tickSnap w) pre w) req (tickSnap w)]
    rw [runSystems_ext dt (tickSnap w) pre w hpre]
  · intro systems dt w
    exact ⟨rfl, fun i hi => getEntityW_processDestructions _ i hi⟩

/-- Witness for C1 (amended), at the concrete creator-then-logger tick. -/
theorem C1_schedule_amended_witness :
    (∀ s ∈ [creatorSys], ∀ (d : ℚ) (m : List Nat) (v : WState), (s.run d m v).ext = v.ext) ∧
    (updateW ([creatorSys] ++ [loggerSys [7]]) 1 ⟨[], 0, [], []⟩).ext
      = ([] : List (List Nat)) ++
        [matchedFrom (runSystems 1 (tickSnap ⟨[], 0, [], []⟩) [creatorSys] ⟨[], 0, [], []⟩)
          [7] (tickSnap ⟨[], 0, [], []⟩)] := by
  have hpre : ∀ s ∈ [creatorSys], ∀ (d : ℚ) (m : List Nat) (v : WState),
      (s.run d m v).ext = v.ext := by
    intro s hs d m v
    rw [List.mem_singleton] at hs
    subst hs
    rfl
  exact ⟨hpre, C1_schedule_amended.1 [creatorSys] [7] 1 ⟨[], 0, [], []⟩ hpre⟩

theorem destroyEntityW_contains (w : WState) (i : Nat) :
    (destroyEntityW w i).toDestroy.contains i = true := by
  unfold destroyEntityW
  simp only
  by_cases hc : w.toDestroy.contains i
  · rw [if_pos hc]
    exact hc
  · rw [if_neg hc]
    exact List.elem_iff.2 (List.mem_append_right _ (List.mem_singleton.2 rfl))

/-- C8: `World.destroyEntity` is idempotent within a tick: queueing the same
entity id twice (the queue is a `Set`, so the second add is a no-op) yields
literally the same world state, and in particular the same state after any
tick's end-of-frame destruction flush (`World.update`). -/
theorem C8_destroy_idempotent (w : WState) (i : Nat) :
    destroyEntityW (destroyEntityW w i) i = destroyEntityW w i ∧
    ∀ (systems : List Sys) (dt : ℚ),
      updateW systems dt (destroyEntityW (destroyEntityW w i) i)
        = updateW systems dt (destroyEntityW w i) := by
  have h : destroyEntityW (destroyEntityW w i) i = destroyEntityW w i := by
    have hc := destroyEntityW_contains w i
    generalize hd : destroyEntityW w i = d at hc ⊢
    unfold destroyEntityW
    rw [if_pos hc]
  exact ⟨h, fun systems dt => by rw [h]⟩

/-- Unit kinds requested from the production queue. -/
inductive UnitKind where
  | worker
deriving DecidableEq

/-- One queued production job (`QueuedUnit`): unit kind, accumulated
progress, and the cost recorded at enqueue time. -/
structure QueuedUnit where
  unitType : UnitKind
  progress : ℚ
  costGold : Int
  costWood : Int
deriving DecidableEq

/-- State of a `ProductionQueueComponent`. -/
structure PQueue where
  queue : List QueuedUnit
  productionRate : ℚ
  maxQueueSize : Nat
deriving DecidableEq

/-- Constructor of `ProductionQueueComponent(productionRate = 1,
maxQueueSize = 5)`. -/
def PQueue.fresh : PQueue := ⟨[], 1, 5⟩

/-- `ProductionQueueComponent.addToQueue(unitType, cost)`: reject when the
queue is at its maximum length, otherwise append a zero-progress job. -/
def PQueue.addToQueue (q : PQueue) (ut : UnitKind) (cg cw : Int) : Bool × PQueue :=
  if q.maxQueueSize ≤ q.queue.length then (false, q)
  else (true, { q with queue := q.queue ++ [⟨ut, 0, cg, cw⟩] })

/-- The slice of the world `ProductionSystem.trainUnit` touches: the shared
pool and the registry restricted to each entity's optional
`ProductionQueueComponent` (an entry `(id, none)` is an entity without the
component). -/
structure ProdWorld where
  pool : Pool
  buildings : List (Nat × Option PQueue)
deriving DecidableEq

/-- `world.getEntity(buildingId)` followed by `getComponent(ProductionQueue)`:
`none` when the building does not resolve, `some none` when it resolves but
has no production queue. -/
def getBuildingQ (w : ProdWorld) (i : Nat) : Option (Option PQueue) :=
  (w.buildings.find? (fun e => e.1 == i)).map (fun e => e.2)

/-- Write back the mutated queue component of building `i`. -/
def setBuildingQ (w : ProdWorld) (i : Nat) (q : PQueue) : ProdWorld :=
  { w with buildings := w.buildings.map (fun e => if e.1 == i then (e.1, some q) else e) }

/-- `ProductionSystem.trainUnit(buildingId)`: validate the building and its
queue, check the pool against the fixed worker cost `{gold: 50, wood: 0}`,
try to enqueue, and only on success deduct the cost from the pool. -/
def trainUnit (w : ProdWorld) (bid : Nat) : Bool × ProdWorld :=
  match getBuildingQ w bid with
  | none => (false, w)
  | some none => (false, w)
  | some (some q) =>
    if w.pool.gold < 50 ∨ w.pool.wood < 0 then (false, w)
    else
      if (q.addToQueue UnitKind.worker 50 0).1 then
        (true, { setBuildingQ w bid (q.addToQueue UnitKind.worker 50 0).2 with
                 pool := ⟨w.pool.gold - 50, w.pool.wood - 0⟩ })
      else (false, w)

theorem find?_map_set {l : List (Nat × Option PQueue)} {i : Nat}
    (h : (l.find? (fun e => e.1 == i)).isSome = true) (q : PQueue) :
    ((l.map (fun e => if e.1 == i then (e.1, some q) else e)).find? (fun e => e.1 == i))
      = some (i, some q) := by
  induction l with
  | nil => simp at h
  | cons e rest ih =>
    rw [List.map_cons]
    by_cases he : (e.1 == i) = true
    · rw [if_pos he]
      rw [List.find?_cons_of_pos _ (by simpa using he)]
      have : e.1 = i := by simpa using he
      rw [this]
    · rw [if_neg he]
      rw [List.find?_cons_of_neg _ (by simpa using he)]
      apply ih
      rw [List.find?_cons_of_neg _ (by simpa using he)] at h
      exact h

theorem getBuildingQ_after_set {w : ProdWorld} {bid : Nat} {q0 : PQueue}
    (h : getBuildingQ w bid = some (some q0)) (q : PQueue) :
    getBuildingQ (setBuildingQ w bid q) bid = some (some q) := by
  unfold getBuildingQ setBuildingQ
  unfold getBuildingQ at h
  simp only
  have hs : ((w.buildings.find? (fun e => e.1 == bid)).isSome) = true := by
    cases hf : w.buildings.find? (fun e => e.1 == bid) with
    | none => rw [hf] at h; exact absurd h (by simp)
    | some e => simp
  rw [find?_map_set hs q]
  rfl

/-- C2: `trainUnit(buildingId)` returns `false` and mutates nothing when the
building does not resolve, when it has no production queue, when the pool
cannot cover the fixed worker cost `{gold: 50, wood: 0}` (`gold < 50` or
`wood < 0`), or when the queue is at its maximum length; otherwise it returns
`true`, deducts the cost from the pool, and appends exactly one zero-progress
worker job at the end of that building's queue. -/
theorem C2_trainUnit_contract :
    (∀ (w : ProdWorld) (bid : Nat),
       getBuildingQ w bid = none → trainUnit w bid = (false, w)) ∧
    (∀ (w : ProdWorld) (bid : Nat),
       getBuildingQ w bid = some none → trainUnit w bid = (false, w)) ∧
    (∀ (w : ProdWorld) (bid : Nat) (q : PQueue), getBuildingQ w bid = some (some q) →
       (w.pool.gold < 50 ∨ w.pool.wood < 0) → trainUnit w bid = (false, w)) ∧
    (∀ (w : ProdWorld) (bid : Nat) (q : PQueue), getBuildingQ w bid = some (some q) →
       50 ≤ w.pool.gold → 0 ≤ w.pool.wood → q.maxQueueSize ≤ q.queue.length →
       trainUnit w bid = (false, w)) ∧
    (∀ (w : ProdWorld) (bid : Nat) (q : PQueue), getBuildingQ w bid = some (some q) →
       50 ≤ w.pool.gold → 0 ≤ w.pool.wood → q.queue.length < q.maxQueueSize →
       (trainUnit w bid).1 = true ∧
       (trainUnit w bid).2.pool = ⟨w.pool.gold - 50, w.pool.wood - 0⟩ ∧
       getBuildingQ (trainUnit w bid).2 bid =
         some (some { q with queue := q.queue ++ [⟨UnitKind.worker, 0, 50, 0⟩] })) := by
  refine ⟨?_, ?_, ?_, ?_, ?_⟩
  · intro w bid hq
    unfold trainUnit
    rw [hq]
  · intro w bid hq
    unfold trainUnit
    rw [hq]
  · intro w bid q hq hpoor
    unfold trainUnit
    rw [hq]
    simp only
    rw [if_pos hpoor]
  · intro w bid q hq hg hw hlen
    unfold trainUnit
    rw [hq]
    simp only
    rw [if_neg (by omega)]
    have hadd : (q.addToQueue UnitKind.worker 50 0).1 = false := by
      unfold PQueue.addToQueue
      rw [if_pos hlen]
    rw [hadd]
    simp
  · intro w bid q hq hg hw hlen
    have hadd : q.addToQueue UnitKind.worker 50 0
        = (true, { q with queue := q.queue ++ [⟨UnitKind.worker, 0, 50, 0⟩] }) := by
      unfold PQueue.addToQueue
      rw [if_neg (by omega)]
    have htrain : trainUnit w bid
        = (true, { setBuildingQ w bid { q with queue := q.queue ++ [⟨UnitKind.worker, 0, 50, 0⟩] }
                   with pool := ⟨w.pool.gold - 50, w.pool.wood - 0⟩ }) := by
      unfold trainUnit
      rw [hq]
      simp only
      rw [if_neg (by omega), hadd, if_pos rfl]
    rw [htrain]
    refine ⟨rfl, rfl, ?_⟩
    have := getBuildingQ_after_set hq { q with queue := q.queue ++ [⟨UnitKind.worker, 0, 50, 0⟩] }
    unfold getBuildingQ at this ⊢
    exact this

/-- Witness for C2: a barracks (id 4) with an empty fresh queue and pool
(60, 10); training succeeds, leaves (10, 10) and a one-job queue. -/
theorem C2_trainUnit_contract_witness :
    (getBuildingQ ⟨⟨60, 10⟩, [(4, some PQueue.fresh)]⟩ 4 = some (some PQueue.fresh) ∧
     (50:Int) ≤ 60 ∧ (0:Int) ≤ 10 ∧ PQueue.fresh.queue.length < PQueue.fresh.maxQueueSize) ∧
    (trainUnit ⟨⟨60, 10⟩, [(4, some PQueue.fresh)]⟩ 4).1 = true ∧
    (trainUnit ⟨⟨60, 10⟩, [(4, some PQueue.fresh)]⟩ 4).2.pool = ⟨60 - 50, 10 - 0⟩ ∧
    getBuildingQ (trainUnit ⟨⟨60, 10⟩, [(4, some PQueue.fresh)]⟩ 4).2 4 =
      some (some { PQueue.fresh with
                   queue := PQueue.fresh.queue ++ [⟨UnitKind.worker, 0, 50, 0⟩] }) := by
  have h := C2_trainUnit_contract.2.2.2.2 ⟨⟨60, 10⟩, [(4, some PQueue.fresh)]⟩ 4 PQueue.fresh
    rfl (by norm_num) (by norm_num) (by norm_num [PQueue.fresh])
  exact ⟨⟨rfl, by norm_num, by norm_num, by norm_num [PQueue.fresh]⟩, h.1, h.2.1, h.2.2⟩

/-- Building kinds of the placement system. -/
inductive BType where
  | townhall
  | barracks
deriving DecidableEq

/-- `BuildingPlacementSystem.getBuildingCost`. -/
def getBuildingCost : BType → Int × Int
  | BType.townhall => (200, 150)
  | BType.barracks => (100, 80)

/-- `BuildingPlacementSystem.isValidPlacement(position)`: valid iff no
existing building's transform is within distance 5 (squared: 25). -/
def isValidPlacement (ppos : Vec3) (buildingPositions : List Vec3) : Bool :=
  buildingPositions.all (fun b => !(distSq ppos b < 25))

/-- `BuildingPlacementSystem.placeBuilding` (pool effect): confirm is
rejected while invalid; while valid the building's fixed cost is deducted
from the pool unconditionally — there is no affordability re-check at
confirm time (it happened only at `enterPlacementMode`). -/
def placeBuilding (pool : Pool) (buildingPositions : List Vec3) (bt : BType) (ppos : Vec3) :
    Bool × Pool :=
  if isValidPlacement ppos buildingPositions then
    (true, ⟨pool.gold - (getBuildingCost bt).1, pool.wood - (getBuildingCost bt).2⟩)
  else (false, pool)

/-- `BuildingPlacementSystem.enterPlacementMode` (pool guard): the build
request is accepted only if the pool covers the kind's fixed cost; the pool
itself is not charged here. -/
def enterPlacementMode (pool : Pool) (bt : BType) : Bool :=
  if pool.gold < (getBuildingCost bt).1 ∨ pool.wood < (getBuildingCost bt).2 then false
  else true

/-- C3 (counterexample): from the non-negative pool (150, 150) — reachable
when resources were spent between entering placement mode and confirming —
confirming a valid townhall placement (fixed cost 200 gold / 150 wood, no
neighbouring buildings) succeeds and drives the gold counter to −50: the
confirm path deducts without re-checking affordability. -/
theorem C3_pool_nonneg_counterexample :
    (0:Int) ≤ 150 ∧ (0:Int) ≤ 150 ∧
    placeBuilding ⟨150, 150⟩ [] BType.townhall ⟨0, 0, 0⟩ = (true, ⟨-50, 0⟩) ∧
    ¬(0 ≤ (placeBuilding ⟨150, 150⟩ [] BType.townhall ⟨0, 0, 0⟩).2.gold) := by
  refine ⟨by norm_num, by norm_num, ?_, ?_⟩ <;>
    norm_num [placeBuilding, isValidPlacement, getBuildingCost]

/-- C3 (amended): train-unit and resource deposit (of a non-negative carry)
preserve non-negativity of both pool counters from any non-negative state;
confirming building placement preserves it only when the pool still covers
the building's cost at confirm time — without that extra premise the confirm
path can drive a counter negative, as the counterexample shows. -/
theorem C3_pool_nonneg_amended :
    (∀ (w : ProdWorld) (bid : Nat), 0 ≤ w.pool.gold → 0 ≤ w.pool.wood →
       0 ≤ (trainUnit w bid).2.pool.gold ∧ 0 ≤ (trainUnit w bid).2.pool.wood) ∧
    (∀ (pool : Pool) (pos : Vec3) (mv : MoveRef) (g : GatherState),
       0 ≤ pool.gold → 0 ≤ pool.wood → 0 ≤ g.currentCarry →
       0 ≤ (depositStep pool pos mv g).1.gold ∧ 0 ≤ (depositStep pool pos mv g).1.wood) ∧
    (∀ (pool : Pool) (bps : List Vec3) (bt : BType) (ppos : Vec3),
       (getBuildingCost bt).1 ≤ pool.gold → (getBuildingCost bt).2 ≤ pool.wood →
       0 ≤ (placeBuilding pool bps bt ppos).2.gold ∧
       0 ≤ (placeBuilding pool bps bt ppos).2.wood) := by
  refine ⟨?_, ?_, ?_⟩
  · intro w bid hg hw
    unfold trainUnit
    cases hq : getBuildingQ w bid with
    | none => exact ⟨hg, hw⟩
    | some o =>
      cases o with
      | none => exact ⟨hg, hw⟩
      | some q =>
        simp only
        by_cases hpoor : w.pool.gold < 50 ∨ w.pool.wood < 0
        · rw [if_pos hpoor]
          exact ⟨hg, hw⟩
        · rw [if_neg hpoor]
          by_cases hadd : (q.addToQueue UnitKind.worker 50 0).1 = true
          · rw [if_pos hadd]
            constructor <;> (dsimp only; omega)
          · rw [if_neg hadd]
            exact ⟨hg, hw⟩
  · intro pool pos mv g hg hw hc
    unfold depositStep
    split
    · split
      · cases hk : g.resourceType with
        | none => exact ⟨hg, hw⟩
        | some t =>
          cases t with
          | gold => constructor <;> (dsimp only; omega)
          | wood => constructor <;> (dsimp only; omega)
      · exact ⟨hg, hw⟩
    · exact ⟨hg, hw⟩
  · intro pool bps bt ppos hg hw
    unfold placeBuilding
    split
    · constructor <;> (dsimp only; omega)
    · cases bt with
      | townhall =>
        simp only [getBuildingCost] at hg hw
        constructor <;> (dsimp only; omega)
      | barracks =>
        simp only [getBuildingCost] at hg hw
        constructor <;> (dsimp only; omega)

/-- Witness for C3 (amended) at concrete states: training from pool (60, 10),
depositing 7 gold from pool (1, 2), and confirming a barracks (cost 100/80)
from pool (120, 90). -/
theorem C3_pool_nonneg_amended_witness :
    ((0:Int) ≤ 60 ∧ (0:Int) ≤ 10 ∧
     0 ≤ (trainUnit ⟨⟨60, 10⟩, [(4, some PQueue.fresh)]⟩ 4).2.pool.gold ∧
     0 ≤ (trainUnit ⟨⟨60, 10⟩, [(4, some PQueue.fresh)]⟩ 4).2.pool.wood) ∧
    ((0:Int) ≤ 1 ∧ (0:Int) ≤ 2 ∧ (0:Int) ≤ 7 ∧
     0 ≤ (depositStep ⟨1, 2⟩ ⟨0, 0, 0⟩ ⟨false, ⟨0, 0, 0⟩⟩
            ⟨10, 5, 7, some RType.gold, none, false, 0⟩).1.gold ∧
     0 ≤ (depositStep ⟨1, 2⟩ ⟨0, 0, 0⟩ ⟨false, ⟨0, 0, 0⟩⟩
            ⟨10, 5, 7, some RType.gold, none, false, 0⟩).1.wood) ∧
    ((getBuildingCost BType.barracks).1 ≤ 120 ∧ (getBuildingCost BType.barracks).2 ≤ 90 ∧
     0 ≤ (placeBuilding ⟨120, 90⟩ [] BType.barracks ⟨0, 0, 0⟩).2.gold ∧
     0 ≤ (placeBuilding ⟨120, 90⟩ [] BType.barracks ⟨0, 0, 0⟩).2.wood) := by
  have h1 := C3_pool_nonneg_amended.1 ⟨⟨60, 10⟩, [(4, some PQueue.fresh)]⟩ 4
    (by norm_num) (by norm_num)
  have h2 := C3_pool_nonneg_amended.2.1 ⟨1, 2⟩ ⟨0, 0, 0⟩ ⟨false, ⟨0, 0, 0⟩⟩
    ⟨10, 5, 7, some RType.gold, none, false, 0⟩ (by norm_num) (by norm_num) (by norm_num)
  have h3 := C3_pool_nonneg_amended.2.2 ⟨120, 90⟩ [] BType.barracks ⟨0, 0, 0⟩
    (by norm_num [getBuildingCost]) (by norm_num [getBuildingCost])
  exact ⟨⟨by norm_num, by norm_num, h1.1, h1.2⟩,
         ⟨by norm_num, by norm_num, by norm_num, h2.1, h2.2⟩,
         ⟨by norm_num [getBuildingCost], by norm_num [getBuildingCost], h3.1, h3.2⟩⟩

/-- The slice of the world the selection system touches: per entity id, the
`SelectableComponent.isSelected` flag (entities that have a Selectable and
resolve in the registry), plus the system's private `currentlySelected`
field. -/
structure SelState where
  reg : List (Nat × Bool)
  currentlySelected : Option Nat
deriving DecidableEq

/-- `SelectableComponent.select()` / `deselect()` applied to entity `i`:
set its flag to `v`. -/
def setSelected (l : List (Nat × Bool)) (i : Nat) (v : Bool) : List (Nat × Bool) :=
  l.map (fun p => if p.1 == i then (p.1, v) else p)

/-- Whether entity `i` resolves in the registry with a Selectable attached
(`world.getEntity` then `getComponent(Selectable)` both succeed). -/
def hasSel (l : List (Nat × Bool)) (i : Nat) : Bool :=
  (l.find? (fun p => p.1 == i)).isSome

/-- The deselect-previous phase of `SelectionSystem.handleSelection`: if an
entity is tracked as currently selected and still resolves with a
Selectable, clear its flag; otherwise leave the registry alone. -/
def deselectPrev (s : SelState) : List (Nat × Bool) :=
  match s.currentlySelected with
  | some c => if hasSel s.reg c then setSelected s.reg c false else s.reg
  | none => s.reg

/-- `SelectionSystem.handleSelection`: `hit` is the entity id resolved from
the raycast (`none` = clicked empty space).  Deselect the previous selection
first; then, on a hit that still resolves with a Selectable, select it and
track it; on a hit that no longer resolves, keep the old tracking value; on
empty space, clear the tracking. -/
def handleSelection (s : SelState) (hit : Option Nat) : SelState :=
  match hit with
  | some h =>
    if hasSel (deselectPrev s) h then ⟨setSelected (deselectPrev s) h true, some h⟩
    else ⟨deselectPrev s, s.currentlySelected⟩
  | none => ⟨deselectPrev s, none⟩

/-- States reachable through the selection system's selection handling,
starting from no entity selected: clicks with arbitrary hit results, spawns
of new selectable entities (whose constructor sets `isSelected = false`),
and despawns. -/
inductive SelReachable : SelState → Prop
  | init (reg : List (Nat × Bool)) (h : ∀ p ∈ reg, p.2 = false) : SelReachable ⟨reg, none⟩
  | click (s : SelState) (hit : Option Nat) (h : SelReachable s) :
      SelReachable (handleSelection s hit)
  | spawn (s : SelState) (i : Nat) (h : SelReachable s) :
      SelReachable ⟨s.reg ++ [(i, false)], s.currentlySelected⟩
  | despawn (s : SelState) (i : Nat) (h : SelReachable s) :
      SelReachable ⟨s.reg.filter (fun p => !(p.1 == i)), s.currentlySelected⟩

/-- Invariant of the selection system: every selected entity is the tracked
one. -/
def SelInv (s : SelState) : Prop :=
  ∀ p ∈ s.reg, p.2 = true → s.currentlySelected = some p.1

theorem deselectPrev_all_false (s : SelState) (hinv : SelInv s) :
    ∀ p ∈ deselectPrev s, p.2 = false := by
  intro p hp
  unfold deselectPrev at hp
  cases hc : s.currentlySelected with
  | none =>
    rw [hc] at hp
    by_cases hpt : p.2 = true
    · have := hinv p hp hpt
      rw [hc] at this
      exact absurd this (by simp)
    · exact Bool.eq_false_iff.2 (fun ht => hpt ht)
  | some c =>
    rw [hc] at hp
    dsimp only at hp
    by_cases hhas : hasSel s.reg c = true
    · rw [if_pos hhas] at hp
      unfold setSelected at hp
      rcases List.mem_map.1 hp with ⟨q, hq, hmap⟩
      by_cases hqc : (q.1 == c) = true
      · rw [if_pos hqc] at hmap
        rw [show p = (q.1, false) from hmap.symm]
      · rw [if_neg hqc] at hmap
        rw [← hmap]
        by_cases hqt : q.2 = true
        · have := hinv q hq hqt
          rw [hc] at this
          have hqc2 : q.1 = c := (Option.some.inj this).symm
          exact absurd (by simpa using hqc2) hqc
        · exact Bool.eq_false_iff.2 (fun ht => hqt ht)
    · rw [if_neg hhas] at hp
      by_cases hpt : p.2 = true
      · have h2 := hinv p hp hpt
        rw [hc] at h2
        have hpc : p.1 = c := (Option.some.inj h2).symm
        have : hasSel s.reg c = true := by
          unfold hasSel
          rw [List.find?_isSome]
          exact ⟨p, hp, by simpa using hpc⟩
        exact absurd this hhas
      · exact Bool.eq_false_iff.2 (fun ht => hpt ht)

theorem selInv_handleSelection (s : SelState) (hit : Option Nat) (hinv : SelInv s) :
    SelInv (handleSelection s hit) := by
  have hall := deselectPrev_all_false s hinv
  unfold handleSelection
  cases hit with
  | none =>
    intro p hp hpt
    exact absurd hpt (by rw [hall p hp]; simp)
  | some h =>
    dsimp only
    by_cases hhas : hasSel (deselectPrev s) h = true
    · rw [if_pos hhas]
      intro p hp hpt
      unfold setSelected at hp
      rcases List.mem_map.1 hp with ⟨q, hq, hmap⟩
      by_cases hqh : (q.1 == h) = true
      · rw [if_pos hqh] at hmap
        subst hmap
        have : q.1 = h := by simpa using hqh
        rw [this]
      · rw [if_neg hqh] at hmap
        rw [← hmap] at hpt
        exact absurd hpt (by rw [hall q hq]; simp)
    · rw [if_neg hhas]
      intro p hp hpt
      exact absurd hpt (by rw [hall p hp]; simp)

theorem selInv_of_reachable {s : SelState} (hr : SelReachable s) : SelInv s := by
  induction hr with
  | init reg h =>
    intro p hp hpt
    exact absurd hpt (by rw [h p hp]; simp)
  | click s hit _ ih => exact selInv_handleSelection s hit ih
  | spawn s i _ ih =>
    intro p hp hpt
    rcases List.mem_append.1 hp with h1 | h2
    · exact ih p h1 hpt
    · rw [List.mem_singleton] at h2
      subst h2
      exact absurd hpt (by simp)
  | despawn s i _ ih =>
    intro p hp hpt
    exact ih p (List.mem_filter.1 hp).1 hpt

/-- C7: in every state reachable through the selection system's selection
handling (starting from no entity selected, with arbitrary clicks, spawns
and despawns), at most one entity has `isSelected = true`: any two selected
registry entries have the same entity id. -/
theorem C7_single_selection (s : SelState) (hr : SelReachable s) :
    ∀ p ∈ s.reg, ∀ q ∈ s.reg, p.2 = true → q.2 = true → p.1 = q.1 := by
  intro p hp q hq hpt hqt
  have h1 := selInv_of_reachable hr p hp hpt
  have h2 := selInv_of_reachable hr q hq hqt
  rw [h1] at h2
  exact Option.some.inj h2

/-- Witness for C7: two units, click selects unit 1, then both selected
entries coincide. -/
theorem C7_single_selection_witness :
    SelReachable ⟨[(1, true), (2, false)], some 1⟩ ∧
    ((1, true) ∈ [((1:Nat), true), (2, false)] ∧ (1, true).2 = true ∧ (1:Nat) = 1) := by
  have h0 : SelReachable ⟨[(1, false), (2, false)], none⟩ := by
    apply SelReachable.init
    intro p hp
    rcases List.mem_cons.1 hp with h1 | h2
    · rw [h1]
    · rw [List.mem_singleton] at h2
      rw [h2]
  have h1 : SelReachable (handleSelection ⟨[(1, false), (2, false)], none⟩ (some 1)) :=
    SelReachable.click _ (some 1) h0
  have he : handleSelection ⟨[(1, false), (2, false)], none⟩ (some 1)
      = ⟨[(1, true), (2, false)], some 1⟩ := by decide
  rw [he] at h1
  refine ⟨h1, by decide, rfl, ?_⟩
  exact C7_single_selection ⟨[(1, true), (2, false)], some 1⟩ h1 (1, true) (by decide)
    (1, true) (by decide) rfl rfl

/-- Combined Movement + Transform state of one entity for the movement
system: planar position (the y coordinate is carried through unchanged by
the system and omitted), speed, optional 2-D target, and the moving flag. -/
structure MState where
  x : ℝ
  z : ℝ
  speed : ℝ
  target : Option (ℝ × ℝ)
  isMoving : Bool

/-- Modelled from the spec: `MovementComponent.clearTarget()` of the 2-D
movement component used by this MovementSystem (the component's class file
is not among the sources; per the spec's Movement data model, reaching the
target "clears both atomically", i.e. the target and the moving flag are
cleared together). -/
def clearTargetM (m : MState) : MState :=
  { m with target := none, isMoving := false }

/-- Per-entity body of `MovementSystem.update(deltaTime)`: skip without a
target; if the squared planar distance to the target is below 0.01, clear
the target (position left as is); otherwise if `speed * deltaTime` reaches
the distance, snap the position to the target and clear; otherwise advance
by `speed * deltaTime` along the normalized direction. -/
noncomputable def moveStep (dt : ℝ) (m : MState) : MState :=
  match m.target with
  | none => m
  | some t =>
    if (t.1 - m.x) * (t.1 - m.x) + (t.2 - m.z) * (t.2 - m.z) < 1/100 then
      clearTargetM m
    else
      if Real.sqrt ((t.1 - m.x) * (t.1 - m.x) + (t.2 - m.z) * (t.2 - m.z)) ≤ m.speed * dt then
        clearTargetM { m with x := t.1, z := t.2 }
      else
        { m with
          x := m.x + (t.1 - m.x) *
            (m.speed * dt / Real.sqrt ((t.1 - m.x) * (t.1 - m.x) + (t.2 - m.z) * (t.2 - m.z))),
          z := m.z + (t.2 - m.z) *
            (m.speed * dt / Real.sqrt ((t.1 - m.x) * (t.1 - m.x) + (t.2 - m.z) * (t.2 - m.z))) }

/-- Movement state of the C6 counterexample: at (1/20, 0), target (0, 0),
speed 1, moving. -/
noncomputable def c6m : MState := ⟨1/20, 0, 1, some (0, 0), true⟩

theorem c6_step : moveStep 1 c6m = clearTargetM c6m := by
  unfold moveStep c6m
  dsimp only
  rw [if_pos (by norm_num)]

/-- C6 (counterexample): with the entity at (1/20, 0) targeting (0, 0) at
speed 1 and `deltaTime = 1`, the remaining distance (1/20) is at most
`speed * deltaTime` (1), so the claim requires the position to be set to the
target in the same tick as the flags are cleared; but the squared distance
(1/400) is below the 0.01 epsilon, and on that branch the code clears the
target and moving flag while leaving the position at (1/20, 0) ≠ (0, 0). -/
theorem C6_arrival_counterexample :
    Real.sqrt ((0 - (1:ℝ)/20) * (0 - (1:ℝ)/20) + ((0:ℝ) - 0) * ((0:ℝ) - 0)) ≤ 1 * 1 ∧
    (moveStep 1 c6m).target = none ∧ (moveStep 1 c6m).isMoving = false ∧
    (moveStep 1 c6m).x = 1/20 ∧ ((1:ℝ)/20 ≠ 0) := by
  refine ⟨?_, ?_, ?_, ?_, by norm_num⟩
  · have he : (0 - (1:ℝ)/20) * (0 - (1:ℝ)/20) + ((0:ℝ) - 0) * ((0:ℝ) - 0) = 1/400 := by
      norm_num
    rw [he]
    calc Real.sqrt (1/400) ≤ Real.sqrt 1 := Real.sqrt_le_sqrt (by norm_num)
    _ = 1 * 1 := by rw [Real.sqrt_one]; norm_num
  · rw [c6_step]; rfl
  · rw [c6_step]; rfl
  · rw [c6_step]; rfl

/-- C6 (amended): for an entity with a movement target, one tick does
exactly one of: (i) squared distance below the 0.01 epsilon — target and
moving flag cleared together, position left unchanged (NOT snapped to the
target); (ii) otherwise, remaining distance at most `speed * deltaTime` —
position set to the target and target and moving flag cleared together;
(iii) otherwise — target and flag kept, and the position advances by exactly
`speed * deltaTime` along the straight line to the target (the squared
displacement equals `(speed * deltaTime)^2`). -/
theorem C6_movement_step (dt : ℝ) (m : MState) (tx tz : ℝ)
    (ht : m.target = some (tx, tz)) :
    ((tx - m.x) * (tx - m.x) + (tz - m.z) * (tz - m.z) < 1/100 →
       moveStep dt m = clearTargetM m) ∧
    (1/100 ≤ (tx - m.x) * (tx - m.x) + (tz - m.z) * (tz - m.z) →
       Real.sqrt ((tx - m.x) * (tx - m.x) + (tz - m.z) * (tz - m.z)) ≤ m.speed * dt →
       moveStep dt m = clearTargetM { m with x := tx, z := tz }) ∧
    (1/100 ≤ (tx - m.x) * (tx - m.x) + (tz - m.z) * (tz - m.z) →
       m.speed * dt < Real.sqrt ((tx - m.x) * (tx - m.x) + (tz - m.z) * (tz - m.z)) →
       (moveStep dt m).target = m.target ∧ (moveStep dt m).isMoving = m.isMoving ∧
       ((moveStep dt m).x - m.x) * ((moveStep dt m).x - m.x) +
         ((moveStep dt m).z - m.z) * ((moveStep dt m).z - m.z)
         = (m.speed * dt) * (m.speed * dt)) := by
  refine ⟨?_, ?_, ?_⟩
  · intro h1
    unfold moveStep
    rw [ht]
    dsimp only
    rw [if_pos h1]
  · intro h1 h2
    unfold moveStep
    rw [ht]
    dsimp only
    rw [if_neg (not_lt.2 h1), if_pos h2]
  · intro h1 h2
    have hstep : moveStep dt m
        = { m with
            x := m.x + (tx - m.x) *
              (m.speed * dt / Real.sqrt ((tx - m.x) * (tx - m.x) + (tz - m.z) * (tz - m.z))),
            z := m.z + (tz - m.z) *
              (m.speed * dt / Real.sqrt ((tx - m.x) * (tx - m.x) + (tz - m.z) * (tz - m.z))) } := by
      unfold moveStep
      rw [ht]
      dsimp only
      rw [if_neg (not_lt.2 h1), if_neg (not_le.2 h2)]
    have hd2pos : (0:ℝ) < (tx - m.x) * (tx - m.x) + (tz - m.z) * (tz - m.z) :=
      lt_of_lt_of_le (by norm_num) h1
    have hspos : (0:ℝ) < Real.sqrt ((tx - m.x) * (tx - m.x) + (tz - m.z) * (tz - m.z)) :=
      Real.sqrt_pos.2 hd2pos
    have hsq : Real.sqrt ((tx - m.x) * (tx - m.x) + (tz - m.z) * (tz - m.z)) *
        Real.sqrt ((tx - m.x) * (tx - m.x) + (tz - m.z) * (tz - m.z))
        = (tx - m.x) * (tx - m.x) + (tz - m.z) * (tz - m.z) :=
      Real.mul_self_sqrt (le_of_lt hd2pos)
    rw [hstep]
    refine ⟨rfl, rfl, ?_⟩
    dsimp only
    have hne : Real.sqrt ((tx - m.x) * (tx - m.x) + (tz - m.z) * (tz - m.z)) ≠ 0 :=
      ne_of_gt hspos
    field_simp
    ring

/-- Movement state of the C6 witness: at the origin, target (3, 4) at
distance 5, speed 1, moving. -/
noncomputable def c6w : MState := ⟨0, 0, 1, some (3, 4), true⟩

/-- Witness for C6 (amended) in the advance branch: distance 5 to (3, 4)
exceeds `speed * deltaTime = 1`, and the displacement of the tick has
squared length exactly 1. -/
theorem C6_movement_step_witness :
    c6w.target = some (3, 4) ∧
    (((3:ℝ) - c6w.x) * ((3:ℝ) - c6w.x) + ((4:ℝ) - c6w.z) * ((4:ℝ) - c6w.z) < 1/100 →
       moveStep 1 c6w = clearTargetM c6w) ∧
    (1/100 ≤ ((3:ℝ) - c6w.x) * ((3:ℝ) - c6w.x) + ((4:ℝ) - c6w.z) * ((4:ℝ) - c6w.z) →
       Real.sqrt (((3:ℝ) - c6w.x) * ((3:ℝ) - c6w.x) + ((4:ℝ) - c6w.z) * ((4:ℝ) - c6w.z))
         ≤ c6w.speed * 1 →
       moveStep 1 c6w = clearTargetM { c6w with x := 3, z := 4 }) ∧
    (1/100 ≤ ((3:ℝ) - c6w.x) * ((3:ℝ) - c6w.x) + ((4:ℝ) - c6w.z) * ((4:ℝ) - c6w.z) →
       c6w.speed * 1 <
         Real.sqrt (((3:ℝ) - c6w.x) * ((3:ℝ) - c6w.x) + ((4:ℝ) - c6w.z) * ((4:ℝ) - c6w.z)) →
       (moveStep 1 c6w).target = c6w.target ∧ (moveStep 1 c6w).isMoving = c6w.isMoving ∧
       ((moveStep 1 c6w).x - c6w.x) * ((moveStep 1 c6w).x - c6w.x) +
         ((moveStep 1 c6w).z - c6w.z) * ((moveStep 1 c6w).z - c6w.z)
         = (c6w.speed * 1) * (c6w.speed * 1)) :=
  ⟨rfl, C6_movement_step 1 c6w 3 4 rfl⟩

end RTS
